import Mathlib

/-!
Verification of `ext4_utils/ext4_crypt.cpp`: per-directory ext4 encryption
policy management (`e4crypt_policy_set`, `e4crypt_policy_get`,
`e4crypt_policy_ensure`), the emptiness check `is_dir_empty` and the hex
codec `policy_to_hex`.

The C functions interact with the kernel through `access`, `open`,
`opendir`/`readdir`/`closedir`, `ioctl` and `close`.  We embed them as pure
functions over an explicit directory/kernel state `Dir`, and every operation
additionally returns the list of system-interaction events it performed, in
order, so that claims about "no kernel write", "fails before the ioctl" and
"every handle is closed" can be stated as properties of that event trace.
Bytes are embedded as `Nat` with masking (`&&& 0xF0`, `&&& 0x0F`) exactly
where the C code masks.
-/

set_option autoImplicit false

/-- EXT4_KEY_DESCRIPTOR_SIZE from the source. -/
def EXT4_KEY_DESCRIPTOR_SIZE : Nat := 8

/-- EXT4_KEY_DESCRIPTOR_SIZE_HEX from the source. -/
def EXT4_KEY_DESCRIPTOR_SIZE_HEX : Nat := 17

/-- EXT4_ENCRYPTION_MODE_AES_256_XTS from the source. -/
def EXT4_ENCRYPTION_MODE_AES_256_XTS : Nat := 1

/-- EXT4_ENCRYPTION_MODE_AES_256_CTS from the source. -/
def EXT4_ENCRYPTION_MODE_AES_256_CTS : Nat := 4

/-- The packed `struct ext4_encryption_policy` exchanged with the kernel.
Byte fields are `Nat`s (values < 256 in any reachable state); the 8-byte
`master_key_descriptor` array is a list of bytes. -/
structure ext4_encryption_policy where
  version : Nat
  contents_encryption_mode : Nat
  filenames_encryption_mode : Nat
  flags : Nat
  master_key_descriptor : List Nat
deriving DecidableEq, Repr

/-- One system-interaction event performed by an operation.  `access` is the
`access(directory, W_OK)` check, `openDir` the `open(directory, O_DIRECTORY
| O_NOFOLLOW | O_CLOEXEC)` call, `opendirCall`/`closedirCall` the directory
listing stream used by `is_dir_empty`, `ioctlSet`/`ioctlGet` the two
encryption-policy ioctls, and `closeFd` a `close` of the directory fd. -/
inductive Ev where
  | access
  | openDir
  | opendirCall
  | closedirCall
  | ioctlSet
  | ioctlGet
  | closeFd
deriving DecidableEq, Repr

/-- The state of one target directory together with the kernel-side facts the
syscalls consult: whether `access(directory, W_OK)` succeeds, whether `open`
succeeds, the `readdir` listing (normally containing "." and ".."), the
encryption policy currently stored by the kernel for this directory (`none`
when no policy was ever set, in which case the get ioctl fails), and whether
the kernel accepts a set ioctl (the kernel is an opaque arbiter that may
reject it). -/
structure Dir where
  writable : Bool
  openOk : Bool
  entries : List String
  policy : Option ext4_encryption_policy
  kernelAcceptsSet : Bool
deriving DecidableEq, Repr

/-- HEX_LOOKUP from the source. -/
def HEX_LOOKUP : List Char := "0123456789abcdef".toList

/-- Indexing into HEX_LOOKUP (out-of-range reads, which never happen for
nibble values, are modelled as a space). -/
def hexChar (n : Nat) : Char := HEX_LOOKUP.getD n ' '

/-- Model of `policy_to_hex`: writes, for each of the first 8 policy bytes, the high
nibble `(policy[i] & 0xF0) >> 4` then the low nibble `policy[i] & 0x0F`
through HEX_LOOKUP, and finally the terminating NUL at index
EXT4_KEY_DESCRIPTOR_SIZE_HEX - 1 = 16; the result models the whole
17-byte `hex` buffer. -/
def policy_to_hex (policy : List Nat) : List Char :=
  ((policy.take EXT4_KEY_DESCRIPTOR_SIZE).flatMap fun b =>
    [hexChar ((b &&& 0xF0) >>> 4), hexChar (b &&& 0x0F)]) ++ [Char.ofNat 0]

/-- The `readdir` loop of `is_dir_empty`, carrying the counter `n`: entries
named "lost+found" are skipped; otherwise `n` is incremented and on `n > 2`
the loop breaks; the function returns `n <= 2`. -/
def is_dir_empty_loop : List String → Nat → Bool
  | [], n => decide (n ≤ 2)
  | d :: ds, n =>
    if d = "lost+found" then
      is_dir_empty_loop ds n
    else if n + 1 > 2 then
      decide (n + 1 ≤ 2)
    else
      is_dir_empty_loop ds (n + 1)

/-- Model of `is_dir_empty`: scans the listing with counter starting at 0. -/
def is_dir_empty (entries : List String) : Bool :=
  is_dir_empty_loop entries 0

/-- The `eep` record built by `e4crypt_policy_set` before the set ioctl:
version 0, contents mode AES-256-XTS, filenames mode AES-256-CTS, flags 0,
and the first EXT4_KEY_DESCRIPTOR_SIZE bytes of the caller's descriptor
(the `memcpy`). -/
def set_eep (policy : List Nat) : ext4_encryption_policy :=
  { version := 0
    contents_encryption_mode := EXT4_ENCRYPTION_MODE_AES_256_XTS
    filenames_encryption_mode := EXT4_ENCRYPTION_MODE_AES_256_CTS
    flags := 0
    master_key_descriptor := policy.take EXT4_KEY_DESCRIPTOR_SIZE }

/-- Model of `e4crypt_policy_set`: length check, access check, open, emptiness check
(through a fresh `opendir` listing; NOTE the source returns without closing
`fd` on this failure path), then builds the fixed-tuple policy record and
issues the set ioctl, closing `fd` on both ioctl outcomes.  Returns the C
return value, the directory state afterwards, and the event trace. -/
def e4crypt_policy_set (d : Dir) (policy : List Nat) (policy_length : Nat) :
    Int × Dir × List Ev :=
  if policy_length ≠ EXT4_KEY_DESCRIPTOR_SIZE then
    (-1, d, [])
  else if d.writable = false then
    (-1, d, [Ev.access])
  else if d.openOk = false then
    (-1, d, [Ev.access, Ev.openDir])
  else if is_dir_empty d.entries = false then
    (-1, d, [Ev.access, Ev.openDir, Ev.opendirCall, Ev.closedirCall])
  else if d.kernelAcceptsSet = false then
    (-1, d, [Ev.access, Ev.openDir, Ev.opendirCall, Ev.closedirCall,
             Ev.ioctlSet, Ev.closeFd])
  else
    (0,
     { d with policy := some (set_eep policy) },
     [Ev.access, Ev.openDir, Ev.opendirCall, Ev.closedirCall,
      Ev.ioctlSet, Ev.closeFd])

/-- Model of `e4crypt_policy_get`: length check, access check, open, get ioctl (fails
iff the kernel stores no policy; `fd` is closed on both outcomes), then the
fixed version/modes/flags tuple check; only when the tuple matches are the
8 descriptor bytes copied into the caller's buffer.  Returns the C return
value, the caller's `policy` buffer after the call, and the event trace. -/
def e4crypt_policy_get (d : Dir) (policy : List Nat) (policy_length : Nat) :
    Int × List Nat × List Ev :=
  if policy_length ≠ EXT4_KEY_DESCRIPTOR_SIZE then
    (-1, policy, [])
  else if d.writable = false then
    (-1, policy, [Ev.access])
  else if d.openOk = false then
    (-1, policy, [Ev.access, Ev.openDir])
  else
    match d.policy with
    | none => (-1, policy, [Ev.access, Ev.openDir, Ev.ioctlGet, Ev.closeFd])
    | some eep =>
      if eep.version = 0
          ∧ eep.contents_encryption_mode = EXT4_ENCRYPTION_MODE_AES_256_XTS
          ∧ eep.filenames_encryption_mode = EXT4_ENCRYPTION_MODE_AES_256_CTS
          ∧ eep.flags = 0 then
        (0,
         eep.master_key_descriptor.take EXT4_KEY_DESCRIPTOR_SIZE
           ++ policy.drop EXT4_KEY_DESCRIPTOR_SIZE,
         [Ev.access, Ev.openDir, Ev.ioctlGet, Ev.closeFd])
      else
        (-1, policy, [Ev.access, Ev.openDir, Ev.ioctlGet, Ev.closeFd])

/-- Model of `e4crypt_policy_ensure`: length check, then a get into a local 8-byte
buffer (uninitialised in C; its initial contents are never read, modelled as
zeroes); on a successful get the first 8 bytes are compared with `memcmp`
(match ⇒ 0, mismatch ⇒ -1, no further syscalls); on a failed get it falls
through to `e4crypt_policy_set`. -/
def e4crypt_policy_ensure (d : Dir) (policy : List Nat) (policy_length : Nat) :
    Int × Dir × List Ev :=
  if policy_length ≠ EXT4_KEY_DESCRIPTOR_SIZE then
    (-1, d, [])
  else if (e4crypt_policy_get d (List.replicate 8 0) 8).1 = 0 then
    if policy.take 8 = (e4crypt_policy_get d (List.replicate 8 0) 8).2.1.take 8 then
      (0, d, (e4crypt_policy_get d (List.replicate 8 0) 8).2.2)
    else
      (-1, d, (e4crypt_policy_get d (List.replicate 8 0) 8).2.2)
  else
    ((e4crypt_policy_set d policy policy_length).1,
     (e4crypt_policy_set d policy policy_length).2.1,
     (e4crypt_policy_get d (List.replicate 8 0) 8).2.2
       ++ (e4crypt_policy_set d policy policy_length).2.2)

/-- A directory that already carries a recognizable policy with descriptor
`[1,1,1,1,1,1,1,1]`, is empty, writable, openable, and whose kernel would
accept a set ioctl. -/
def conflictDir : Dir :=
  { writable := true
    openOk := true
    entries := [".", ".."]
    policy := some
      { version := 0
        contents_encryption_mode := 1
        filenames_encryption_mode := 4
        flags := 0
        master_key_descriptor := [1, 1, 1, 1, 1, 1, 1, 1] }
    kernelAcceptsSet := true }

/-- Helper: `e4crypt_policy_get` never issues a set ioctl, on any path. -/
theorem get_trace_no_ioctlSet (d : Dir) (buf : List Nat) (len : Nat) :
    Ev.ioctlSet ∉ (e4crypt_policy_get d buf len).2.2 := by
  unfold e4crypt_policy_get
  repeat' split
  all_goals simp

/-- Claim C1: if `e4crypt_policy_get` successfully reads an existing policy
whose stored 8-byte descriptor differs from the requested descriptor, then
`e4crypt_policy_ensure` returns -1, issues no set ioctl, leaves the
directory state unchanged, and a subsequent `e4crypt_policy_get` returns
exactly what it returned before. -/
theorem ensure_conflict_no_overwrite (d : Dir) (D : List Nat)
    (hD : D.length = 8)
    (hret : (e4crypt_policy_get d (List.replicate 8 0) 8).1 = 0)
    (hlen : (e4crypt_policy_get d (List.replicate 8 0) 8).2.1.length = 8)
    (hne : D ≠ (e4crypt_policy_get d (List.replicate 8 0) 8).2.1) :
    (e4crypt_policy_ensure d D 8).1 = -1 ∧
    Ev.ioctlSet ∉ (e4crypt_policy_ensure d D 8).2.2 ∧
    (e4crypt_policy_ensure d D 8).2.1 = d ∧
    e4crypt_policy_get (e4crypt_policy_ensure d D 8).2.1 (List.replicate 8 0) 8
      = e4crypt_policy_get d (List.replicate 8 0) 8 := by
  have hcmp : D.take 8 ≠ (e4crypt_policy_get d (List.replicate 8 0) 8).2.1.take 8 := by
    rw [List.take_of_length_le (le_of_eq hD), List.take_of_length_le (le_of_eq hlen)]
    exact hne
  unfold e4crypt_policy_ensure
  rw [if_neg (by decide), if_pos hret, if_neg hcmp]
  exact ⟨rfl, get_trace_no_ioctlSet d _ 8, rfl, rfl⟩

/-- Witness for C1 at `conflictDir` with requested descriptor `0×8`. -/
theorem ensure_conflict_no_overwrite_witness :
    (e4crypt_policy_get conflictDir (List.replicate 8 0) 8).1 = 0 ∧
    (e4crypt_policy_ensure conflictDir (List.replicate 8 0) 8).1 = -1 ∧
    (e4crypt_policy_ensure conflictDir (List.replicate 8 0) 8).2.1 = conflictDir := by
  have h := ensure_conflict_no_overwrite conflictDir (List.replicate 8 0)
    (by decide) (by decide) (by decide) (by decide)
  exact ⟨by decide, h.1, h.2.2.1⟩

/-- Claim C5: with a descriptor length other than 8, each of the three
operations returns -1, performs no system interaction at all (empty event
trace: no access check, no open, no listing, no ioctl), leaves the
directory state unchanged and the caller's buffer unchanged. -/
theorem length_guard_fails_first (d : Dir) (D buf : List Nat) (len : Nat)
    (h : len ≠ 8) :
    (e4crypt_policy_set d D len).1 = -1 ∧
    (e4crypt_policy_set d D len).2.2 = [] ∧
    (e4crypt_policy_set d D len).2.1 = d ∧
    (e4crypt_policy_get d buf len).1 = -1 ∧
    (e4crypt_policy_get d buf len).2.2 = [] ∧
    (e4crypt_policy_get d buf len).2.1 = buf ∧
    (e4crypt_policy_ensure d D len).1 = -1 ∧
    (e4crypt_policy_ensure d D len).2.2 = [] ∧
    (e4crypt_policy_ensure d D len).2.1 = d := by
  simp [e4crypt_policy_set, e4crypt_policy_get, e4crypt_policy_ensure,
    EXT4_KEY_DESCRIPTOR_SIZE, h]

/-- Witness for C5 at length 7. -/
theorem length_guard_fails_first_witness :
    (e4crypt_policy_set conflictDir [0, 0, 0, 0, 0, 0, 0] 7).1 = -1 ∧
    (e4crypt_policy_get conflictDir [0, 0, 0, 0, 0, 0, 0] 7).2.2 = [] ∧
    (e4crypt_policy_ensure conflictDir [0, 0, 0, 0, 0, 0, 0] 7).2.2 = [] := by
  have h := length_guard_fails_first conflictDir [0, 0, 0, 0, 0, 0, 0]
    [0, 0, 0, 0, 0, 0, 0] 7 (by decide)
  exact ⟨h.1, h.2.2.2.2.1, h.2.2.2.2.2.2.2.1⟩

/-- Claim C9: when the caller lacks write permission on the directory,
`e4crypt_policy_get` returns -1 without ever issuing the get ioctl. -/
theorem get_requires_write_permission (d : Dir) (buf : List Nat) (len : Nat)
    (h : d.writable = false) :
    (e4crypt_policy_get d buf len).1 = -1 ∧
    Ev.ioctlGet ∉ (e4crypt_policy_get d buf len).2.2 := by
  unfold e4crypt_policy_get
  by_cases hlen : len ≠ EXT4_KEY_DESCRIPTOR_SIZE
  · rw [if_pos hlen]
    exact ⟨rfl, by simp⟩
  · rw [if_neg hlen, if_pos h]
    exact ⟨rfl, by simp⟩

/-- Witness for C9 on a non-writable directory. -/
theorem get_requires_write_permission_witness :
    (e4crypt_policy_get { conflictDir with writable := false }
      (List.replicate 8 0) 8).1 = -1 ∧
    Ev.ioctlGet ∉ (e4crypt_policy_get { conflictDir with writable := false }
      (List.replicate 8 0) 8).2.2 :=
  get_requires_write_permission { conflictDir with writable := false }
    (List.replicate 8 0) 8 rfl

/-- Claim C10: on every failure of `e4crypt_policy_get` (wrong length,
access denied, open failure, failed get ioctl, or unrecognized
version/modes/flags tuple) the caller's descriptor buffer is returned
completely unchanged. -/
theorem get_failure_leaves_buffer (d : Dir) (buf : List Nat) (len : Nat)
    (h : (e4crypt_policy_get d buf len).1 ≠ 0) :
    (e4crypt_policy_get d buf len).2.1 = buf := by
  revert h
  unfold e4crypt_policy_get
  repeat' split
  all_goals intro h
  all_goals first
  | rfl
  | exact absurd rfl h

/-- Witness for C10: the buffer `[9,9,9,9,9,9,9,9]` survives a failed get
on a directory with no policy. -/
theorem get_failure_leaves_buffer_witness :
    (e4crypt_policy_get { conflictDir with policy := none }
      [9, 9, 9, 9, 9, 9, 9, 9] 8).2.1 = [9, 9, 9, 9, 9, 9, 9, 9] :=
  get_failure_leaves_buffer { conflictDir with policy := none }
    [9, 9, 9, 9, 9, 9, 9, 9] 8 (by decide)

/-- A fresh empty directory: writable, openable, no policy set, kernel
accepting the set request. -/
def emptyDir : Dir :=
  { writable := true
    openOk := true
    entries := [".", ".."]
    policy := none
    kernelAcceptsSet := true }

/-- A non-empty directory (one real file next to "." and ".."). -/
def nonEmptyDir : Dir :=
  { writable := true
    openOk := true
    entries := [".", "..", "somefile"]
    policy := none
    kernelAcceptsSet := true }

/-- On a writable, openable, empty directory whose kernel accepts the set
request, `e4crypt_policy_set` succeeds, stores the fixed-tuple record with
the caller's descriptor, and closes the fd it opened. -/
theorem set_on_empty_dir (d : Dir) (D : List Nat)
    (hw : d.writable = true) (ho : d.openOk = true)
    (he : is_dir_empty d.entries = true) (hk : d.kernelAcceptsSet = true) :
    e4crypt_policy_set d D 8 =
      (0, { d with policy := some (set_eep D) },
       [Ev.access, Ev.openDir, Ev.opendirCall, Ev.closedirCall,
        Ev.ioctlSet, Ev.closeFd]) := by
  unfold e4crypt_policy_set
  rw [if_neg (by decide), if_neg (by simp [hw]), if_neg (by simp [ho]),
    if_neg (by simp [he]), if_neg (by simp [hk])]

/-- On a writable, openable directory whose kernel stores the record
`set_eep D` (the record `e4crypt_policy_set` writes for an 8-byte
descriptor `D`), `e4crypt_policy_get` succeeds and returns exactly `D`. -/
theorem get_after_set (d : Dir) (D : List Nat) (hD : D.length = 8)
    (hw : d.writable = true) (ho : d.openOk = true)
    (hp : d.policy = some (set_eep D)) :
    e4crypt_policy_get d (List.replicate 8 0) 8 =
      (0, D, [Ev.access, Ev.openDir, Ev.ioctlGet, Ev.closeFd]) := by
  unfold e4crypt_policy_get
  rw [if_neg (by decide), if_neg (by simp [hw]), if_neg (by simp [ho]), hp]
  simp [set_eep, EXT4_KEY_DESCRIPTOR_SIZE, EXT4_ENCRYPTION_MODE_AES_256_XTS,
    EXT4_ENCRYPTION_MODE_AES_256_CTS, List.take_of_length_le (le_of_eq hD)]

/-- Counterexample to Claim C2 as stated: `conflictDir` is an empty,
writable, openable directory on a kernel that would accept the set request,
and `[0,...,0]` is a valid 8-byte descriptor, yet `e4crypt_policy_ensure`
fails because a recognizable policy with a different descriptor already
exists on the (empty) directory. -/
theorem empty_dir_ensure_can_fail :
    conflictDir.writable = true ∧ conflictDir.openOk = true ∧
    is_dir_empty conflictDir.entries = true ∧
    conflictDir.kernelAcceptsSet = true ∧
    (List.replicate 8 (0 : Nat)).length = 8 ∧
    (e4crypt_policy_ensure conflictDir (List.replicate 8 0) 8).1 ≠ 0 := by
  decide

/-- Claim C2 (amended: the directory additionally carries no recognizable
pre-existing policy, i.e. the initial `e4crypt_policy_get` fails): on an
empty, writable, openable directory whose kernel accepts the set request,
`e4crypt_policy_ensure` succeeds and an immediately following
`e4crypt_policy_get` succeeds and returns exactly the requested 8-byte
descriptor. -/
theorem ensure_then_get_roundtrip (d : Dir) (D : List Nat)
    (hD : D.length = 8) (hw : d.writable = true) (ho : d.openOk = true)
    (he : is_dir_empty d.entries = true) (hk : d.kernelAcceptsSet = true)
    (hget : (e4crypt_policy_get d (List.replicate 8 0) 8).1 ≠ 0) :
    (e4crypt_policy_ensure d D 8).1 = 0 ∧
    (e4crypt_policy_get (e4crypt_policy_ensure d D 8).2.1
      (List.replicate 8 0) 8).1 = 0 ∧
    (e4crypt_policy_get (e4crypt_policy_ensure d D 8).2.1
      (List.replicate 8 0) 8).2.1 = D := by
  have hens : (e4crypt_policy_ensure d D 8).1 = 0 ∧
      (e4crypt_policy_ensure d D 8).2.1 = { d with policy := some (set_eep D) } := by
    unfold e4crypt_policy_ensure
    rw [if_neg (by decide), if_neg hget, set_on_empty_dir d D hw ho he hk]
    exact ⟨rfl, rfl⟩
  refine ⟨hens.1, ?_, ?_⟩ <;>
    rw [hens.2, get_after_set _ D hD (by simp [hw]) (by simp [ho]) rfl]

/-- Witness for C2 (amended) at `emptyDir` with descriptor `[0,...,7]`. -/
theorem ensure_then_get_roundtrip_witness :
    (e4crypt_policy_ensure emptyDir [0, 1, 2, 3, 4, 5, 6, 7] 8).1 = 0 ∧
    (e4crypt_policy_get (e4crypt_policy_ensure emptyDir [0, 1, 2, 3, 4, 5, 6, 7] 8).2.1
      (List.replicate 8 0) 8).2.1 = [0, 1, 2, 3, 4, 5, 6, 7] := by
  have h := ensure_then_get_roundtrip emptyDir [0, 1, 2, 3, 4, 5, 6, 7]
    (by decide) (by decide) (by decide) (by decide) (by decide) (by decide)
  exact ⟨h.1, h.2.2⟩

/-- Counterexample to Claim C3 as stated: on the empty, writable directory
`conflictDir` (kernel accepting set), `e4crypt_policy_ensure` with the
valid 8-byte descriptor `[0,...,0]` does not succeed even once, because a
differing policy pre-exists; so "calling it twice succeeds both times"
fails for this empty directory. -/
theorem empty_dir_ensure_twice_can_fail :
    conflictDir.writable = true ∧ conflictDir.openOk = true ∧
    is_dir_empty conflictDir.entries = true ∧
    conflictDir.kernelAcceptsSet = true ∧
    (List.replicate 8 (0 : Nat)).length = 8 ∧
    (e4crypt_policy_ensure
      (e4crypt_policy_ensure conflictDir (List.replicate 8 0) 8).2.1
      (List.replicate 8 0) 8).1 ≠ 0 ∧
    (e4crypt_policy_ensure conflictDir (List.replicate 8 0) 8).1 ≠ 0 := by
  decide

/-- Claim C3 (amended: the directory additionally carries no recognizable
pre-existing policy, i.e. the initial `e4crypt_policy_get` fails):
`e4crypt_policy_ensure` is idempotent — both calls succeed, the set ioctl
is issued during the first call, and the second call performs no set ioctl
(it takes the matching-policy path). -/
theorem ensure_idempotent (d : Dir) (D : List Nat)
    (hD : D.length = 8) (hw : d.writable = true) (ho : d.openOk = true)
    (he : is_dir_empty d.entries = true) (hk : d.kernelAcceptsSet = true)
    (hget : (e4crypt_policy_get d (List.replicate 8 0) 8).1 ≠ 0) :
    (e4crypt_policy_ensure d D 8).1 = 0 ∧
    Ev.ioctlSet ∈ (e4crypt_policy_ensure d D 8).2.2 ∧
    (e4crypt_policy_ensure (e4crypt_policy_ensure d D 8).2.1 D 8).1 = 0 ∧
    Ev.ioctlSet ∉ (e4crypt_policy_ensure (e4crypt_policy_ensure d D 8).2.1 D 8).2.2 := by
  have hens : (e4crypt_policy_ensure d D 8).1 = 0 ∧
      (e4crypt_policy_ensure d D 8).2.1 = { d with policy := some (set_eep D) } ∧
      Ev.ioctlSet ∈ (e4crypt_policy_ensure d D 8).2.2 := by
    unfold e4crypt_policy_ensure
    rw [if_neg (by decide), if_neg hget, set_on_empty_dir d D hw ho he hk]
    exact ⟨rfl, rfl, by simp⟩
  have hget2 := get_after_set { d with policy := some (set_eep D) } D hD
    (by simp [hw]) (by simp [ho]) rfl
  refine ⟨hens.1, hens.2.2, ?_, ?_⟩ <;>
  · rw [hens.2.1]
    unfold e4crypt_policy_ensure
    rw [if_neg (by decide), if_pos (by rw [hget2]), hget2]
    simp

/-- Witness for C3 (amended) at `emptyDir` with descriptor `[0,...,7]`. -/
theorem ensure_idempotent_witness :
    (e4crypt_policy_ensure emptyDir [0, 1, 2, 3, 4, 5, 6, 7] 8).1 = 0 ∧
    (e4crypt_policy_ensure
      (e4crypt_policy_ensure emptyDir [0, 1, 2, 3, 4, 5, 6, 7] 8).2.1
      [0, 1, 2, 3, 4, 5, 6, 7] 8).1 = 0 := by
  have h := ensure_idempotent emptyDir [0, 1, 2, 3, 4, 5, 6, 7]
    (by decide) (by decide) (by decide) (by decide) (by decide) (by decide)
  exact ⟨h.1, h.2.2.1⟩

/-- Claim C4: (a) every record `e4crypt_policy_set` hands to the set ioctl
has version 0, contents mode AES-256-XTS (1), filenames mode AES-256-CTS
(4) and flags 0 — in particular, whenever a set succeeds the stored policy
is exactly that record; (b) when the get ioctl itself succeeds (a record
`eep` is stored, the directory writable and openable),
`e4crypt_policy_get` returns success if and only if all four fields of
`eep` match that exact tuple. -/
theorem fixed_tuple_invariant :
    (∀ d : Dir, ∀ D : List Nat, ∀ len : Nat,
      (e4crypt_policy_set d D len).1 = 0 →
      (e4crypt_policy_set d D len).2.1.policy = some (set_eep D) ∧
      (set_eep D).version = 0 ∧
      (set_eep D).contents_encryption_mode = EXT4_ENCRYPTION_MODE_AES_256_XTS ∧
      (set_eep D).filenames_encryption_mode = EXT4_ENCRYPTION_MODE_AES_256_CTS ∧
      (set_eep D).flags = 0) ∧
    (∀ d : Dir, ∀ buf : List Nat, ∀ eep : ext4_encryption_policy,
      d.writable = true → d.openOk = true → d.policy = some eep →
      ((e4crypt_policy_get d buf 8).1 = 0 ↔
        eep.version = 0 ∧
        eep.contents_encryption_mode = EXT4_ENCRYPTION_MODE_AES_256_XTS ∧
        eep.filenames_encryption_mode = EXT4_ENCRYPTION_MODE_AES_256_CTS ∧
        eep.flags = 0)) := by
  constructor
  · intro d D len h
    have hp : (e4crypt_policy_set d D len).2.1.policy = some (set_eep D) := by
      revert h
      unfold e4crypt_policy_set
      repeat' split
      all_goals intro h
      all_goals first
      | rfl
      | simp at h
    exact ⟨hp, rfl, rfl, rfl, rfl⟩
  · intro d buf eep hw ho hp
    unfold e4crypt_policy_get
    rw [if_neg (by decide), if_neg (by simp [hw]), if_neg (by simp [ho]), hp]
    split
    · next h => exact absurd h (by simp)
    · next eep2 h =>
      obtain rfl : eep2 = eep := by
        injection h with h2
        exact h2.symm
      split
      · next ht => simp [ht]
      · next ht => simp [ht]

/-- Witness for C4: a successful set on `emptyDir` stores the fixed-tuple
record, and a get on `conflictDir` (stored tuple matching) succeeds. -/
theorem fixed_tuple_invariant_witness :
    (e4crypt_policy_set emptyDir (List.replicate 8 3) 8).2.1.policy
      = some (set_eep (List.replicate 8 3)) ∧
    (e4crypt_policy_get conflictDir (List.replicate 8 0) 8).1 = 0 := by
  refine ⟨(fixed_tuple_invariant.1 emptyDir (List.replicate 8 3) 8 (by decide)).1, ?_⟩
  exact (fixed_tuple_invariant.2 conflictDir (List.replicate 8 0)
    { version := 0, contents_encryption_mode := 1, filenames_encryption_mode := 4,
      flags := 0, master_key_descriptor := [1, 1, 1, 1, 1, 1, 1, 1] }
    rfl rfl rfl).mpr (by decide)

/-- Claim C6 fails on the code: on a writable, openable, NON-empty
directory, `e4crypt_policy_set` opens the directory fd, fails the
emptiness check and returns -1 without ever closing that fd (the listing
stream of `is_dir_empty` itself is closed).  The claim/spec requires every
handle closed on every exit path; the source's early return at the
emptiness check skips `close(fd)`. -/
theorem set_leaks_fd_on_nonempty_dir :
    (e4crypt_policy_set nonEmptyDir (List.replicate 8 0) 8).1 = -1 ∧
    Ev.openDir ∈ (e4crypt_policy_set nonEmptyDir (List.replicate 8 0) 8).2.2 ∧
    Ev.closedirCall ∈ (e4crypt_policy_set nonEmptyDir (List.replicate 8 0) 8).2.2 ∧
    Ev.closeFd ∉ (e4crypt_policy_set nonEmptyDir (List.replicate 8 0) 8).2.2 := by
  decide

/-- The `readdir` loop computes "at most 2 entries other than lost+found":
`is_dir_empty_loop l n` is true iff `n` plus the number of entries of `l`
not named "lost+found" is at most 2 (the early `break` does not change the
outcome). -/
theorem is_dir_empty_loop_spec (l : List String) (n : Nat) :
    is_dir_empty_loop l n
      = decide (n + l.countP (fun e => !(e == "lost+found")) ≤ 2) := by
  induction l generalizing n with
  | nil => simp [is_dir_empty_loop]
  | cons d ds ih =>
    unfold is_dir_empty_loop
    by_cases hd : d = "lost+found"
    · rw [if_pos hd, ih, List.countP_cons]
      simp [hd]
    · have hdb : (!(d == "lost+found")) = true := by simp [hd]
      rw [if_neg hd, List.countP_cons, hdb, if_pos rfl]
      by_cases hn : n + 1 > 2
      · rw [if_pos hn]
        rw [decide_eq_decide]
        omega
      · rw [if_neg hn, ih]
        rw [decide_eq_decide]
        omega

/-- Helper: `is_dir_empty` returns true iff at most two entries are not named
"lost+found". -/
theorem is_dir_empty_spec (l : List String) :
    is_dir_empty l = decide (l.countP (fun e => !(e == "lost+found")) ≤ 2) := by
  rw [is_dir_empty, is_dir_empty_loop_spec]
  simp

/-- If every entry is ".", ".." or "lost+found", the non-lost+found entries
are counted exactly by the occurrences of "." and "..". -/
theorem countP_of_only_dots (l : List String)
    (h : ∀ e ∈ l, e = "." ∨ e = ".." ∨ e = "lost+found") :
    l.countP (fun e => !(e == "lost+found")) = l.count "." + l.count ".." := by
  induction l with
  | nil => simp
  | cons d ds ih =>
    have hd := h d (List.mem_cons_self ..)
    have hds : ∀ e ∈ ds, e = "." ∨ e = ".." ∨ e = "lost+found" :=
      fun e he => h e (List.mem_cons_of_mem _ he)
    rcases hd with rfl | rfl | rfl <;>
      simp [List.countP_cons, List.count_cons, ih hds] <;> omega

/-- Claim C7: on a listing containing "." and ".." exactly once each (as
every readdir listing does), `is_dir_empty` returns true iff the listing
contains no entry other than ".", ".." and the reserved "lost+found"
entry: lost+found is never counted, and "." and ".." are the baseline two
counted entries. -/
theorem is_dir_empty_iff_only_dots (l : List String)
    (h1 : l.count "." = 1) (h2 : l.count ".." = 1) :
    is_dir_empty l = true
      ↔ ∀ e ∈ l, e = "." ∨ e = ".." ∨ e = "lost+found" := by
  rw [is_dir_empty_spec, decide_eq_true_iff]
  constructor
  · intro hle e he
    by_contra hcon
    push_neg at hcon
    obtain ⟨he1, he2, he3⟩ := hcon
    have hmem1 : "." ∈ l := by
      have : 0 < l.count "." := by omega
      exact List.count_pos_iff.mp this
    have hmem2 : ".." ∈ l := by
      have : 0 < l.count ".." := by omega
      exact List.count_pos_iff.mp this
    rw [List.countP_eq_length_filter] at hle
    have hf1 : "." ∈ l.filter (fun e => !(e == "lost+found")) :=
      List.mem_filter.mpr ⟨hmem1, by decide⟩
    have hf2 : ".." ∈ l.filter (fun e => !(e == "lost+found")) :=
      List.mem_filter.mpr ⟨hmem2, by decide⟩
    have hfe : e ∈ l.filter (fun e => !(e == "lost+found")) :=
      List.mem_filter.mpr ⟨he, by simp [he3]⟩
    have hf2e : ".." ∈ (l.filter (fun e => !(e == "lost+found"))).erase "." :=
      (List.mem_erase_of_ne (by decide)).mpr hf2
    have hfee : e ∈ ((l.filter (fun e => !(e == "lost+found"))).erase ".").erase ".." :=
      (List.mem_erase_of_ne he2).mpr ((List.mem_erase_of_ne he1).mpr hfe)
    have hl1 := List.length_erase_of_mem hf1
    have hl2 := List.length_erase_of_mem hf2e
    have hl3 := List.length_pos_of_mem hfee
    omega
  · intro hall
    rw [countP_of_only_dots l hall, h1, h2]

set_option maxRecDepth 4096 in
/-- For byte values, the masked-and-shifted nibble extractions of the
source agree with division and remainder by 16. -/
theorem nibble_mask_eq : ∀ b : Nat, b < 256 →
    (b &&& 0xF0) >>> 4 = b / 16 ∧ b &&& 0x0F = b % 16 := by
  decide

/-- Nibble values index into HEX_LOOKUP, so produce lowercase hex digits. -/
theorem hexChar_mem_lookup : ∀ k : Nat, k < 16 → hexChar k ∈ HEX_LOOKUP := by
  decide

/-- The per-byte pair expansion, rephrased with `/ 16` and `% 16`. -/
theorem flatMap_hex_divmod (p : List Nat) (hb : ∀ b ∈ p, b < 256) :
    (p.flatMap fun b => [hexChar ((b &&& 0xF0) >>> 4), hexChar (b &&& 0x0F)])
      = p.flatMap fun b => [hexChar (b / 16), hexChar (b % 16)] := by
  induction p with
  | nil => rfl
  | cons b bs ih =>
    have hb0 := nibble_mask_eq b (hb b (List.mem_cons_self ..))
    simp [List.flatMap_cons, hb0.1, hb0.2,
      ih (fun x hx => hb x (List.mem_cons_of_mem _ hx))]

/-- Each byte contributes exactly two characters. -/
theorem flatMap_pair_length {α β : Type} (f g : α → β) (p : List α) :
    (p.flatMap fun b => [f b, g b]).length = 2 * p.length := by
  induction p with
  | nil => rfl
  | cons b bs ih =>
    simp only [List.flatMap_cons, List.length_append, List.length_cons,
      List.length_nil, ih]
    omega

/-- Claim C8: for every descriptor of 8 bytes (any byte values below 256,
including those with the high bit set), `policy_to_hex` fills the modelled
17-character buffer with, in order, the high then the low nibble of each
byte as a lowercase hex digit (16 digits total), followed by the
terminating NUL at index 16; and the ascending descriptor
`0x00 0x11 ... 0x77` encodes to the string "0011223344556677". -/
theorem policy_to_hex_spec (p : List Nat)
    (hlen : p.length = 8) (hb : ∀ b ∈ p, b < 256) :
    policy_to_hex p
      = (p.flatMap fun b => [hexChar (b / 16), hexChar (b % 16)])
          ++ [Char.ofNat 0] ∧
    (policy_to_hex p).length = EXT4_KEY_DESCRIPTOR_SIZE_HEX ∧
    (policy_to_hex p).getLast? = some (Char.ofNat 0) ∧
    (∀ c ∈ (policy_to_hex p).dropLast, c ∈ HEX_LOOKUP) ∧
    policy_to_hex [0x00, 0x11, 0x22, 0x33, 0x44, 0x55, 0x66, 0x77]
      = "0011223344556677".toList ++ [Char.ofNat 0] := by
  have htake : p.take EXT4_KEY_DESCRIPTOR_SIZE = p := by
    rw [EXT4_KEY_DESCRIPTOR_SIZE]
    exact List.take_of_length_le (le_of_eq hlen)
  have heq : policy_to_hex p
      = (p.flatMap fun b => [hexChar (b / 16), hexChar (b % 16)])
          ++ [Char.ofNat 0] := by
    rw [policy_to_hex, htake, flatMap_hex_divmod p hb]
  refine ⟨heq, ?_, ?_, ?_, by decide⟩
  · rw [heq, List.length_append, flatMap_pair_length, hlen]
    rfl
  · rw [heq]
    exact List.getLast?_concat _
  · rw [heq, List.dropLast_concat]
    intro c hc
    obtain ⟨b, hbp, hcb⟩ := List.mem_flatMap.mp hc
    have hblt : b < 256 := hb b hbp
    simp only [List.mem_cons, List.not_mem_nil, or_false] at hcb
    rcases hcb with h | h
    · rw [h]
      exact hexChar_mem_lookup _ (by omega)
    · rw [h]
      exact hexChar_mem_lookup _ (by omega)

/-- Witness for C8 at the ascending descriptor. -/
theorem policy_to_hex_spec_witness :
    ([0x00, 0x11, 0x22, 0x33, 0x44, 0x55, 0x66, 0x77] : List Nat).length = 8 ∧
    (policy_to_hex [0x00, 0x11, 0x22, 0x33, 0x44, 0x55, 0x66, 0x77]).length
      = EXT4_KEY_DESCRIPTOR_SIZE_HEX ∧
    (policy_to_hex [0x00, 0x11, 0x22, 0x33, 0x44, 0x55, 0x66, 0x77]).getLast?
      = some (Char.ofNat 0) :=
  ⟨by decide,
   (policy_to_hex_spec [0x00, 0x11, 0x22, 0x33, 0x44, 0x55, 0x66, 0x77]
     (by decide) (by decide)).2.1,
   (policy_to_hex_spec [0x00, 0x11, 0x22, 0x33, 0x44, 0x55, 0x66, 0x77]
     (by decide) (by decide)).2.2.1⟩

/-- Witness for C7 on the listing `[".", "..", "lost+found"]`. -/
theorem is_dir_empty_iff_only_dots_witness :
    ([".", "..", "lost+found"].count "." = 1) ∧
    ([".", "..", "lost+found"].count ".." = 1) ∧
    (is_dir_empty [".", "..", "lost+found"] = true
      ↔ ∀ e ∈ [".", "..", "lost+found"],
          e = "." ∨ e = ".." ∨ e = "lost+found") :=
  ⟨by decide, by decide,
   is_dir_empty_iff_only_dots [".", "..", "lost+found"] (by decide) (by decide)⟩
